import Mathlib

/-!
Shallow embedding of the Homebase live-workout session engine
(`src/liveWorkout.ts`, with the session store of `src/storage.ts`).

Modelling conventions:
* Timestamps are integer milliseconds (`Int`); the TypeScript code stores ISO
  strings and converts with `new Date(...).getTime()`, which we model as the
  identity on the numeric instant.
* `getActiveWorkout` re-parses the stored JSON on every call, so each call
  yields a fresh object; mutations of one loaded object are invisible to a
  later load until `saveActiveWorkout` writes it back.  The model therefore
  tracks the *store* contents and translates each load/mutate/save sequence of
  the source into an explicit store update, preserving the source's order of
  loads and saves (this matters in `completeSet`, see below).
* JavaScript exceptions thrown by out-of-range index accesses abort a
  function before its final `saveActiveWorkout`, leaving the store with its
  previous snapshot; the model returns the unchanged state in those branches.
* `localStorage` failures for the weight memory are caught inside
  `saveLastUsedWeight` (best effort); the model threads an explicit success
  flag for that single fallible write.
* DOM reads/writes and the rendering layer are excluded; the interval timers
  are modelled as driver fields (`workoutTimerArmed`, `restTimerSecs`,
  `restEndTime`) mirroring the module-level `workoutTimer` / `restTimer` /
  `restEndTime` variables.
-/

namespace Homebase

/-- One spec entry of a program: `Exercise` in `types.ts`. -/
structure Exercise where
  id : String
  name : String
  sets : Nat
  reps : Nat
  restTime : Nat
  deriving Repr, DecidableEq

/-- A workout program: `WorkoutProgram` in `types.ts` (fields not read by the
engine are omitted). -/
structure WorkoutProgram where
  id : String
  displayName : String
  exercises : List Exercise
  deriving Repr, DecidableEq

/-- One set of an active exercise: `ExerciseSet` in `types.ts`. -/
structure ExerciseSet where
  setNumber : Nat
  completed : Bool
  completedAt : Option Int := none
  weight : Option Int := none
  deriving Repr, DecidableEq

/-- Progress through one exercise: `ActiveExercise` in `types.ts`. -/
structure ActiveExercise where
  exerciseId : String
  sets : List ExerciseSet
  currentSet : Nat
  deriving Repr, DecidableEq

/-- The persisted session snapshot: `ActiveWorkout` in `types.ts`. -/
structure ActiveWorkout where
  programId : String
  programName : String
  startTime : Int
  exercises : List ActiveExercise
  currentExerciseIndex : Nat
  isResting : Bool
  restStartTime : Option Int
  restDuration : Option Int
  paused : Bool
  deriving Repr, DecidableEq

/-- The weight-memory blob: a record mapping exercise id to last used load. -/
abbrev WeightMem := List (String × Int)

/-- Engine state: the session store (`localStorage` under the active-workout
key), the weight-memory blob, and the module-level timer driver variables. -/
structure EngineState where
  stored : Option ActiveWorkout
  weights : WeightMem
  workoutTimerArmed : Bool
  restTimerSecs : Option Nat
  restEndTime : Option Int
  deriving Repr, DecidableEq

/-- `getLastUsedWeight`: look up the last used load for an exercise. -/
def getLastUsedWeight (mem : WeightMem) (exerciseId : String) : Option Int :=
  (mem.find? (fun p => p.1 == exerciseId)).map (fun p => p.2)

/-- Record-field assignment `weights[exerciseId] = weight` on the parsed blob. -/
def setWeight : WeightMem → String → Int → WeightMem
  | [], exerciseId, x => [(exerciseId, x)]
  | (k, v) :: rest, exerciseId, x =>
      if k == exerciseId then (k, x) :: rest else (k, v) :: setWeight rest exerciseId x

/-- `saveLastUsedWeight`: writes the load to the weight-memory blob; the
`localStorage` read/write sits in a `try`/`catch`, so a failure (`ok = false`)
leaves the blob unchanged and never propagates. -/
def saveLastUsedWeight (mem : WeightMem) (exerciseId : String) (weight : Int)
    (ok : Bool) : WeightMem :=
  if ok then setWeight mem exerciseId weight else mem

/-- `createActiveWorkout`: fresh session state from a program (lines 602-619). -/
def createActiveWorkout (program : WorkoutProgram) (now : Int) : ActiveWorkout :=
  { programId := program.id
    programName := program.displayName
    startTime := now
    exercises := program.exercises.map (fun exercise =>
      { exerciseId := exercise.id
        sets := (List.range exercise.sets).map (fun i =>
          { setNumber := i + 1, completed := false })
        currentSet := 0 })
    currentExerciseIndex := 0
    isResting := false
    restStartTime := none
    restDuration := none
    paused := false }

/-- `stopResting` (lines 390-408): disarm the rest countdown, and — if a
session is stored — clear `isResting`, `restStartTime` and `restDuration` in
the store.  Note it re-loads the session from the store, so it acts on the
latest persisted snapshot. -/
def stopResting (st : EngineState) : EngineState :=
  { st with restTimerSecs := none
            restEndTime := none
            stored := st.stored.map (fun w =>
              { w with isResting := false, restStartTime := none, restDuration := none }) }

/-- `startRestTimer` (lines 360-388): arms the rest countdown driver for the
given number of whole seconds, setting the module-level `restEndTime`.  The
source calls `updateRestDisplay()` synchronously (line 386) before arming the
interval; when armed for 0 seconds that first tick computes `remaining === 0`
and runs `stopResting()` on the spot, clearing the persisted rest state and
`restEndTime` (the interval armed afterwards is inert, every later tick
returns early on the null `restEndTime`, so it is not tracked).  Display
writes are DOM work and excluded. -/
def startRestTimer (st : EngineState) (seconds : Nat) (now : Int) : EngineState :=
  let armed : EngineState :=
    { st with restTimerSecs := some seconds
              restEndTime := some (now + (seconds : Int) * 1000) }
  if seconds = 0 then stopResting armed else armed

/-- `startResting` (lines 348-358): load the stored session, set the resting
fields, persist, and arm the rest countdown. -/
def startResting (st : EngineState) (seconds : Nat) (now : Int) : EngineState :=
  match st.stored with
  | none => st
  | some w =>
      let w1 : ActiveWorkout :=
        { w with isResting := true
                 restStartTime := some now
                 restDuration := some ((seconds : Int) * 1000) }
      startRestTimer { st with stored := some w1 } seconds now

/-- Indexed forward search of `completeSet`'s advancement (line 335):
`exercises.findIndex((ex, idx) => idx > exerciseIndex && ex.sets.some(s => !s.completed))`. -/
def findNextIncompleteAux (ei : Nat) : List ActiveExercise → Nat → Option Nat
  | [], _ => none
  | ex :: rest, idx =>
      if idx > ei && ex.sets.any (fun s => !s.completed) then some idx
      else findNextIncompleteAux ei rest (idx + 1)

/-- First exercise index strictly after `ei` that still has an incomplete set. -/
def findNextIncomplete (exs : List ActiveExercise) (ei : Nat) : Option Nat :=
  findNextIncompleteAux ei exs 0

/-- Tail of `completeSet` after the target set has been marked (lines 323-345):
advance within the exercise and start resting, or advance to the next
incomplete exercise; then persist the mutated (session-object) snapshot `w`.

The source's `startResting` loads its own fresh copy of the *old* store,
persists it with the resting fields set, and arms the driver (including the
driver's synchronous zero-second expiry) — but `completeSet`'s final
`saveActiveWorkout(activeWorkout)` (line 344) then writes the stale pre-rest
object, so the store ends with `w`'s original resting fields; only the
driver keeps the outcome of the countdown.  The model therefore applies
`startResting` to the state and then overwrites the stored snapshot (and the
weight memory written earlier in `completeSet`) with the stale object. -/
def completeSetAdvance (prog : WorkoutProgram) (st : EngineState) (w : ActiveWorkout)
    (ei : Nat) (ex : ActiveExercise) (setsV : List ExerciseSet) (now : Int)
    (mem : WeightMem) : EngineState :=
  match setsV.findIdx? (fun t => !t.completed) with
  | some n =>
      match prog.exercises[ei]? with
      | none => { st with weights := mem }
      | some spec =>
          let ex1 : ActiveExercise := { ex with sets := setsV, currentSet := n }
          let w1 : ActiveWorkout := { w with exercises := w.exercises.set ei ex1 }
          { startResting st spec.restTime now with stored := some w1, weights := mem }
  | none =>
      let exsV := w.exercises.set ei ({ ex with sets := setsV })
      match findNextIncomplete exsV ei with
      | some nei =>
          let w1 : ActiveWorkout := { w with exercises := exsV, currentExerciseIndex := nei }
          { st with stored := some w1, weights := mem }
      | none =>
          let w1 : ActiveWorkout := { w with exercises := exsV }
          { st with stored := some w1, weights := mem }

/-- `completeSet(exerciseIndex, setIndex)` (lines 299-346).  `weight` is the
parsed weight-input value (`none` when the field is empty); `memOk` is the
success of the weight-memory `localStorage` write.  Out-of-range accesses
throw in the source before the final save, leaving the store unchanged; the
weight write is skipped when `weight` is falsy (absent or `0`). -/
def completeSet (prog : WorkoutProgram) (st : EngineState) (ei si : Nat)
    (weight : Option Int) (memOk : Bool) (now : Int) : EngineState :=
  match st.stored with
  | none => st
  | some w =>
      match w.exercises[ei]? with
      | none => st
      | some ex =>
          match ex.sets[si]? with
          | none => st
          | some s =>
              let s1 : ExerciseSet :=
                { s with completed := true, completedAt := some now, weight := weight }
              let setsV := ex.sets.set si s1
              match weight with
              | some x =>
                  if x = 0 then completeSetAdvance prog st w ei ex setsV now st.weights
                  else
                    match prog.exercises[ei]? with
                    | none => st
                    | some spec =>
                        completeSetAdvance prog st w ei ex setsV now
                          (saveLastUsedWeight st.weights spec.id x memOk)
              | none => completeSetAdvance prog st w ei ex setsV now st.weights

/-- `togglePauseWorkout` (lines 453-481): flip `paused` and persist; on
pause, stop the workout clock and — if resting — run `stopResting`; on
unpause, restart the workout clock and re-arm the rest countdown from the
stored anchor when the remaining time is positive (the stale case of
non-positive remaining is left as-is by the source). -/
def togglePauseWorkout (st : EngineState) (now : Int) : EngineState :=
  match st.stored with
  | none => st
  | some w =>
      let w1 := { w with paused := !w.paused }
      let st1 := { st with stored := some w1 }
      if w1.paused then
        let st2 := { st1 with workoutTimerArmed := false }
        if w1.isResting then stopResting st2 else st2
      else
        let st2 := { st1 with workoutTimerArmed := true }
        if w1.isResting then
          match w1.restStartTime, w1.restDuration with
          | some restStart, some dur =>
              if dur = 0 then st2
              else
                let remaining := max 0 (dur - (now - restStart))
                if remaining > 0 then startRestTimer st2 (remaining / 1000).toNat now
                else st2
          | _, _ => st2
        else st2

/-- `resumeWorkout` (lines 166-190, engine-relevant parts): `progFound` is
whether `getWorkoutProgramById` finds the session's program (early return
otherwise).  If not paused, re-arm the workout clock; if resting with a
present `restStartTime` and a present, nonzero `restDuration` (the source's
truthiness guard), recompute the remaining rest and either re-arm the
countdown at its whole-second floor or expire the rest immediately. -/
def resumeWorkout (st : EngineState) (progFound : Bool) (now : Int) : EngineState :=
  match st.stored with
  | none => st
  | some w =>
      if !progFound then st
      else if w.paused then st
      else
        let st1 := { st with workoutTimerArmed := true }
        if w.isResting then
          match w.restStartTime, w.restDuration with
          | some restStart, some dur =>
              if dur = 0 then st1
              else
                let remaining := dur - (now - restStart)
                if remaining > 0 then startRestTimer st1 (remaining / 1000).toNat now
                else stopResting st1
          | _, _ => st1
        else st1

/-- `addRestTime` (lines 414-424): only acts while the driver's `restEndTime`
is set; extends it, and — when the stored session has a truthy (present,
nonzero) `restDuration` — also extends and persists the stored duration. -/
def addRestTime (st : EngineState) (seconds : Nat) : EngineState :=
  match st.restEndTime with
  | none => st
  | some endT =>
      let st1 := { st with restEndTime := some (endT + (seconds : Int) * 1000) }
      match st.stored with
      | none => st1
      | some w =>
          match w.restDuration with
          | none => st1
          | some dur =>
              if dur = 0 then st1
              else
                let w1 : ActiveWorkout :=
                  { w with restDuration := some (dur + (seconds : Int) * 1000) }
                { st1 with stored := some w1 }

/-- `finishWorkout` (lines 483-544), state effects after the user confirmed:
`progFound` is the program lookup, `saveOk` the outcome of the awaited
`addWorkout` call.  `addWorkout` re-throws on failure, so the cleanup lines
(stop timers, `stopResting`, `clearActiveWorkout`) run only when the external
save succeeded; on failure the whole state is left untouched. -/
def finishWorkout (st : EngineState) (progFound saveOk : Bool) : EngineState :=
  match st.stored with
  | none => st
  | some _ =>
      if !progFound then st
      else if !saveOk then st
      else { (stopResting { st with workoutTimerArmed := false }) with stored := none }

/-- The `completedTimestamps` of `calculateExerciseElapsedMs` (lines 590-592):
timestamps of the completed sets that carry a completion timestamp. -/
def completedTimestamps (sets : List ExerciseSet) : List Int :=
  (sets.filter (fun s => s.completed)).filterMap (fun s => s.completedAt)

/-- `calculateExerciseElapsedMs` (lines 589-599): spread (`Math.max` minus
`Math.min`, clamped at 0) of the completed-set timestamps; `undefined` when
there are none. -/
def calculateExerciseElapsedMs (sets : List ExerciseSet) : Option Int :=
  match completedTimestamps sets with
  | [] => none
  | t :: ts =>
      let earliest := ts.foldl min t
      let latest := ts.foldl max t
      some (max 0 (latest - earliest))

/-- The engine transitions other than reset and successful finish, as an
operation alphabet for frame/invariant statements. -/
inductive EngineOp where
  | complete (prog : Option WorkoutProgram) (ei si : Nat) (weight : Option Int) (memOk : Bool)
  | beginRest (seconds : Nat)
  | expireRest
  | togglePause
  | extendRest (seconds : Nat)
  deriving Repr, DecidableEq

/-- One engine transition; `.complete` with an absent program models the
early return of `completeSet` when `getWorkoutProgramById` misses. -/
def engineStep (st : EngineState) (op : EngineOp) (now : Int) : EngineState :=
  match op with
  | .complete progOpt ei si weight memOk =>
      match progOpt with
      | none => st
      | some prog => completeSet prog st ei si weight memOk now
  | .beginRest seconds => startResting st seconds now
  | .expireRest => stopResting st
  | .togglePause => togglePauseWorkout st now
  | .extendRest seconds => addRestTime st seconds

/-- The stored SetRecord of exercise `ei`, set `si`, read from a session
snapshot. -/
def setAtW (w : ActiveWorkout) (ei si : Nat) : Option ExerciseSet :=
  match w.exercises[ei]? with
  | none => none
  | some ex => ex.sets[si]?

/-- The stored SetRecord of exercise `ei`, set `si`, read from the store. -/
def setAt (st : EngineState) (ei si : Nat) : Option ExerciseSet :=
  match st.stored with
  | none => none
  | some w => setAtW w ei si

/-- The stored session's current exercise index (0 when no session). -/
def currentExerciseIndexOf (st : EngineState) : Nat :=
  match st.stored with
  | none => 0
  | some w => w.currentExerciseIndex

/-- The session-identity fields captured at creation. -/
def idFields (w : ActiveWorkout) : String × String × Int :=
  (w.programId, w.programName, w.startTime)

/-- Whether an operation is a `completeSet` targeting the given set. -/
def targetsSet : EngineOp → Nat → Nat → Bool
  | .complete _ ei si _ _, ei0, si0 => ei == ei0 && si == si0
  | _, _, _ => false

/-- Concrete one-exercise program used by witnesses and counterexamples. -/
def demoProgram : WorkoutProgram :=
  { id := "p1"
    displayName := "Push Day"
    exercises := [{ id := "e1", name := "Bench Press", sets := 2, reps := 8, restTime := 75 }] }

/-- Fresh engine state for `demoProgram`, started at time 0. -/
def initState : EngineState :=
  { stored := some (createActiveWorkout demoProgram 0)
    weights := []
    workoutTimerArmed := true
    restTimerSecs := none
    restEndTime := none }

/-- Concrete four-exercise program (one set each). -/
def quadProgram : WorkoutProgram :=
  { id := "p4"
    displayName := "Quad"
    exercises :=
      [ { id := "a", name := "A", sets := 1, reps := 5, restTime := 60 },
        { id := "b", name := "B", sets := 1, reps := 5, restTime := 60 },
        { id := "c", name := "C", sets := 1, reps := 5, restTime := 60 },
        { id := "d", name := "D", sets := 1, reps := 5, restTime := 60 } ] }

/-- Fresh engine state for `quadProgram`, started at time 0. -/
def quadState : EngineState :=
  { stored := some (createActiveWorkout quadProgram 0)
    weights := []
    workoutTimerArmed := true
    restTimerSecs := none
    restEndTime := none }

/-- A session of `demoProgram` that is mid-rest: rest began at time 0 with a
60-second duration. -/
def restingSession : ActiveWorkout :=
  { createActiveWorkout demoProgram 0 with
      isResting := true, restStartTime := some 0, restDuration := some 60000 }

/-- Engine state holding `restingSession` with the countdown armed. -/
def restingState : EngineState :=
  { stored := some restingSession
    weights := []
    workoutTimerArmed := true
    restTimerSecs := some 60
    restEndTime := some 60000 }

/-- A session whose persisted rest has `restDuration = 0` (as `startResting 0`
writes before the driver's first tick). -/
def staleRestSession : ActiveWorkout :=
  { createActiveWorkout demoProgram 0 with
      isResting := true, restStartTime := some 0, restDuration := some 0 }

/-- Engine state holding `staleRestSession`, as found on page load. -/
def staleRestState : EngineState :=
  { stored := some staleRestSession
    weights := []
    workoutTimerArmed := false
    restTimerSecs := none
    restEndTime := none }

/-- Concrete set list for the elapsed-time computation: two completed sets
with timestamps 100 and 350, one incomplete set. -/
def demoSets : List ExerciseSet :=
  [ { setNumber := 1, completed := true, completedAt := some 100 },
    { setNumber := 2, completed := true, completedAt := some 350 },
    { setNumber := 3, completed := false } ]

/-! Helper lemmas shared by the claim theorems. -/

theorem getLastUsedWeight_setWeight (mem : WeightMem) (exerciseId : String) (x : Int) :
    getLastUsedWeight (setWeight mem exerciseId x) exerciseId = some x := by
  induction mem with
  | nil => simp [setWeight, getLastUsedWeight]
  | cons p rest ih =>
      obtain ⟨k, v⟩ := p
      by_cases hk : k == exerciseId
      · simp [setWeight, hk, getLastUsedWeight, List.find?]
      · simp only [setWeight, hk, if_neg]
        simpa [getLastUsedWeight, List.find?, hk] using ih

theorem findNextIncompleteAux_gt (ei : Nat) :
    ∀ (l : List ActiveExercise) (start n : Nat),
      findNextIncompleteAux ei l start = some n → ei < n := by
  intro l
  induction l with
  | nil => intro start n h; simp [findNextIncompleteAux] at h
  | cons ex rest ih =>
      intro start n h
      unfold findNextIncompleteAux at h
      split at h
      · next hcond =>
          obtain ⟨h1, _⟩ := Bool.and_eq_true_iff.mp hcond
          obtain rfl : start = n := by simpa using h
          exact of_decide_eq_true h1
      · exact ih (start + 1) n h

theorem foldl_min_le (l : List Int) (a : Int) : l.foldl min a ≤ a := by
  induction l generalizing a with
  | nil => simp
  | cons x xs ih => exact le_trans (ih (min a x)) (min_le_left a x)

theorem le_foldl_max (l : List Int) (a : Int) : a ≤ l.foldl max a := by
  induction l generalizing a with
  | nil => simp
  | cons x xs ih => exact le_trans (le_max_left a x) (ih (max a x))

theorem completeSetAdvance_cEI (prog : WorkoutProgram) (st : EngineState)
    (w : ActiveWorkout) (ei : Nat) (ex : ActiveExercise) (setsV : List ExerciseSet)
    (now : Int) (mem : WeightMem) (hst : st.stored = some w)
    (hge : w.currentExerciseIndex ≤ ei) :
    w.currentExerciseIndex ≤
      currentExerciseIndexOf (completeSetAdvance prog st w ei ex setsV now mem) := by
  unfold completeSetAdvance
  split
  · split
    · simp [currentExerciseIndexOf, hst]
    · simp [currentExerciseIndexOf]
  · dsimp only
    split
    · next nei hfind =>
        have := findNextIncompleteAux_gt ei _ 0 nei hfind
        simp only [currentExerciseIndexOf]
        omega
    · simp [currentExerciseIndexOf]

theorem completeSetAdvance_idFields (prog : WorkoutProgram) (st : EngineState)
    (w : ActiveWorkout) (ei : Nat) (ex : ActiveExercise) (setsV : List ExerciseSet)
    (now : Int) (mem : WeightMem) (hst : st.stored = some w) :
    (completeSetAdvance prog st w ei ex setsV now mem).stored.map idFields =
      some (idFields w) := by
  unfold completeSetAdvance
  split
  · split <;> simp [hst, idFields]
  · dsimp only
    split <;> simp [idFields]

theorem completeSet_idFields (prog : WorkoutProgram) (st : EngineState) (ei si : Nat)
    (weight : Option Int) (memOk : Bool) (now : Int) :
    (completeSet prog st ei si weight memOk now).stored.map idFields =
      st.stored.map idFields := by
  unfold completeSet
  split
  · rfl
  · next w hst =>
      split
      · rfl
      · split
        · rfl
        · split
          · split
            · rw [completeSetAdvance_idFields _ _ _ _ _ _ _ _ hst, hst]; rfl
            · split
              · rfl
              · rw [completeSetAdvance_idFields _ _ _ _ _ _ _ _ hst, hst]; rfl
          · rw [completeSetAdvance_idFields _ _ _ _ _ _ _ _ hst, hst]; rfl

theorem completeSetAdvance_setAt_other (prog : WorkoutProgram) (st : EngineState)
    (w : ActiveWorkout) (ei : Nat) (ex : ActiveExercise) (setsV : List ExerciseSet)
    (now : Int) (mem : WeightMem) (ei0 si0 : Nat) (hst : st.stored = some w)
    (hne : ei ≠ ei0) :
    setAt (completeSetAdvance prog st w ei ex setsV now mem) ei0 si0 = setAtW w ei0 si0 := by
  unfold completeSetAdvance
  split
  · split
    · simp [setAt, hst]
    · simp [setAt, setAtW, List.getElem?_set_ne hne]
  · dsimp only
    split <;> simp [setAt, setAtW, List.getElem?_set_ne hne]

theorem completeSetAdvance_setAt_same_ex (prog : WorkoutProgram) (st : EngineState)
    (w : ActiveWorkout) (ei : Nat) (ex : ActiveExercise) (setsV : List ExerciseSet)
    (now : Int) (mem : WeightMem) (si0 : Nat) (hst : st.stored = some w)
    (hex : w.exercises[ei]? = some ex) (hkeep : setsV[si0]? = ex.sets[si0]?) :
    setAt (completeSetAdvance prog st w ei ex setsV now mem) ei si0 = ex.sets[si0]? := by
  have hlt : ei < w.exercises.length := (List.getElem?_eq_some.mp hex).1
  unfold completeSetAdvance
  split
  · split
    · simp [setAt, hst, setAtW, hex]
    · simp [setAt, setAtW, List.getElem?_set_eq_of_lt _ hlt, hkeep]
  · dsimp only
    split <;> simp [setAt, setAtW, List.getElem?_set_eq_of_lt _ hlt, hkeep]

theorem completeSetAdvance_setAt_target (prog : WorkoutProgram) (st : EngineState)
    (w : ActiveWorkout) (ei : Nat) (ex : ActiveExercise) (setsV : List ExerciseSet)
    (now : Int) (mem : WeightMem) (si0 : Nat) (spec : Exercise)
    (hex : w.exercises[ei]? = some ex) (hspec : prog.exercises[ei]? = some spec) :
    setAt (completeSetAdvance prog st w ei ex setsV now mem) ei si0 = setsV[si0]? := by
  have hlt : ei < w.exercises.length := (List.getElem?_eq_some.mp hex).1
  unfold completeSetAdvance
  split
  · split
    · next h => rw [h] at hspec; exact absurd hspec (by simp)
    · simp [setAt, setAtW, List.getElem?_set_eq_of_lt _ hlt]
  · dsimp only
    split <;> simp [setAt, setAtW, List.getElem?_set_eq_of_lt _ hlt]

theorem completeSet_setAt_ne (prog : WorkoutProgram) (st : EngineState) (ei si : Nat)
    (weight : Option Int) (memOk : Bool) (now : Int) (ei0 si0 : Nat)
    (hne : ei = ei0 → si = si0 → False) :
    setAt (completeSet prog st ei si weight memOk now) ei0 si0 = setAt st ei0 si0 := by
  unfold completeSet
  split
  · rfl
  · next w hst =>
      split
      · rfl
      · next ex hex =>
          split
          · rfl
          · next s hs =>
              have hkeep : ∀ s1 : ExerciseSet, ei = ei0 →
                  (ex.sets.set si s1)[si0]? = ex.sets[si0]? := by
                intro s1 hei
                exact List.getElem?_set_ne (fun hsi => hne hei hsi)
              have base : ∀ mem : WeightMem,
                  setAt (completeSetAdvance prog st w ei ex
                    (ex.sets.set si
                      { s with completed := true, completedAt := some now, weight := weight })
                    now mem) ei0 si0 = setAt st ei0 si0 := by
                intro mem
                by_cases hei : ei = ei0
                · subst hei
                  rw [completeSetAdvance_setAt_same_ex _ _ _ _ _ _ _ _ _ hst hex
                      (hkeep _ rfl)]
                  simp [setAt, hst, setAtW, hex]
                · rw [completeSetAdvance_setAt_other _ _ _ _ _ _ _ _ _ _ hst hei]
                  simp [setAt, hst]
              split
              · split
                · exact base _
                · split
                  · rfl
                  · exact base _
              · exact base _


theorem completeSetAdvance_weights (prog : WorkoutProgram) (st : EngineState)
    (w : ActiveWorkout) (ei : Nat) (ex : ActiveExercise) (setsV : List ExerciseSet)
    (now : Int) (mem : WeightMem) :
    (completeSetAdvance prog st w ei ex setsV now mem).weights = mem := by
  unfold completeSetAdvance
  split
  · split <;> rfl
  · dsimp only
    split <;> rfl

theorem completeSetAdvance_stored_mem_irrel (prog : WorkoutProgram) (st : EngineState)
    (w : ActiveWorkout) (ei : Nat) (ex : ActiveExercise) (setsV : List ExerciseSet)
    (now : Int) (mem1 mem2 : WeightMem) :
    (completeSetAdvance prog st w ei ex setsV now mem1).stored =
      (completeSetAdvance prog st w ei ex setsV now mem2).stored := by
  unfold completeSetAdvance
  split
  · split <;> rfl
  · dsimp only
    split <;> rfl

theorem stopResting_stored_exercises (st : EngineState) :
    (stopResting st).stored.map (fun w => w.exercises) =
      st.stored.map (fun w => w.exercises) := by
  cases h : st.stored <;> simp [stopResting, h]

theorem startRestTimer_stored_exercises (st : EngineState) (seconds : Nat) (now : Int) :
    (startRestTimer st seconds now).stored.map (fun w => w.exercises) =
      st.stored.map (fun w => w.exercises) := by
  unfold startRestTimer
  dsimp only
  split
  · rw [stopResting_stored_exercises]
  · rfl

theorem stopResting_stored_idFields (st : EngineState) :
    (stopResting st).stored.map idFields = st.stored.map idFields := by
  cases h : st.stored <;> simp [stopResting, idFields, h]

theorem startRestTimer_stored_idFields (st : EngineState) (seconds : Nat) (now : Int) :
    (startRestTimer st seconds now).stored.map idFields = st.stored.map idFields := by
  unfold startRestTimer
  dsimp only
  split
  · rw [stopResting_stored_idFields]
  · rfl

theorem startResting_stored_exercises (st : EngineState) (seconds : Nat) (now : Int) :
    (startResting st seconds now).stored.map (fun w => w.exercises) =
      st.stored.map (fun w => w.exercises) := by
  unfold startResting
  cases h : st.stored with
  | none => simp [h]
  | some w =>
      simp only [h]
      rw [startRestTimer_stored_exercises]
      simp [h]


theorem togglePauseWorkout_stored_exercises (st : EngineState) (now : Int) :
    (togglePauseWorkout st now).stored.map (fun w => w.exercises) =
      st.stored.map (fun w => w.exercises) := by
  unfold togglePauseWorkout
  cases h : st.stored with
  | none => simp [h]
  | some w =>
      simp only [h]
      repeat' split
      all_goals
        first
          | (rw [startRestTimer_stored_exercises]; simp)
          | simp [stopResting]

theorem addRestTime_stored_exercises (st : EngineState) (seconds : Nat) :
    (addRestTime st seconds).stored.map (fun w => w.exercises) =
      st.stored.map (fun w => w.exercises) := by
  unfold addRestTime
  repeat' split
  all_goals simp_all

theorem setAt_congr_stored (st1 st2 : EngineState) (ei si : Nat)
    (h : st1.stored.map (fun w => w.exercises) = st2.stored.map (fun w => w.exercises)) :
    setAt st1 ei si = setAt st2 ei si := by
  unfold setAt setAtW
  cases h1 : st1.stored with
  | none =>
      cases h2 : st2.stored with
      | none => rfl
      | some w2 => rw [h1, h2] at h; simp at h
  | some w1 =>
      cases h2 : st2.stored with
      | none => rw [h1, h2] at h; simp at h
      | some w2 =>
          rw [h1, h2] at h
          simp only [Option.map_some', Option.some.injEq] at h
          dsimp only
          rw [h]


/-! Claim theorems. -/

/-- C5: for every program `P`, `createActiveWorkout P now` yields one
ExerciseProgress per ExerciseSpec in program order, where the i-th exercise
references the i-th spec's id and its set list has length exactly the spec's
target set count, with set numbers 1..N in order, all `completed = false` and
no timestamp or load; the session has current exercise index 0, each
exercise's current-set index 0, `resting = false`, `paused = false`, and
start timestamp `now`. -/
theorem createActiveWorkout_fresh (P : WorkoutProgram) (now : Int) :
    (createActiveWorkout P now).programId = P.id ∧
    (createActiveWorkout P now).programName = P.displayName ∧
    (createActiveWorkout P now).startTime = now ∧
    (createActiveWorkout P now).currentExerciseIndex = 0 ∧
    (createActiveWorkout P now).isResting = false ∧
    (createActiveWorkout P now).restStartTime = none ∧
    (createActiveWorkout P now).restDuration = none ∧
    (createActiveWorkout P now).paused = false ∧
    (createActiveWorkout P now).exercises.length = P.exercises.length ∧
    (∀ (i : Nat) (spec : Exercise), P.exercises[i]? = some spec →
      ∃ e : ActiveExercise, (createActiveWorkout P now).exercises[i]? = some e ∧
        e.exerciseId = spec.id ∧ e.currentSet = 0 ∧ e.sets.length = spec.sets ∧
        (∀ (j : Nat) (r : ExerciseSet), e.sets[j]? = some r →
          r.setNumber = j + 1 ∧ r.completed = false ∧
          r.completedAt = none ∧ r.weight = none)) := by
  refine ⟨rfl, rfl, rfl, rfl, rfl, rfl, rfl, rfl, by simp [createActiveWorkout], ?_⟩
  intro i spec hspec
  refine ⟨{ exerciseId := spec.id
            sets := (List.range spec.sets).map (fun k =>
              { setNumber := k + 1, completed := false })
            currentSet := 0 }, ?_, rfl, rfl, by simp, ?_⟩
  · unfold createActiveWorkout
    dsimp only
    rw [List.getElem?_map, hspec]
    rfl
  · intro j r hr
    dsimp only at hr
    rw [List.getElem?_map] at hr
    rcases Nat.lt_or_ge j spec.sets with hj | hj
    · rw [List.getElem?_range hj] at hr
      simp only [Option.map_some', Option.some.injEq] at hr
      subst hr
      exact ⟨rfl, rfl, rfl, rfl⟩
    · rw [List.getElem?_eq_none (by simpa using hj)] at hr
      simp at hr

/-- C5 witness: `createActiveWorkout_fresh` applied to the concrete
`demoProgram` at time 0. -/
theorem createActiveWorkout_fresh_witness :
    (createActiveWorkout demoProgram 0).startTime = 0 ∧
    ∃ e, (createActiveWorkout demoProgram 0).exercises[0]? = some e ∧
      e.sets.length = 2 := by
  obtain ⟨-, -, h3, -, -, -, -, -, -, hAll⟩ := createActiveWorkout_fresh demoProgram 0
  obtain ⟨e, he, -, -, hlen, -⟩ :=
    hAll 0 { id := "e1", name := "Bench Press", sets := 2, reps := 8, restTime := 75 } rfl
  exact ⟨h3, e, he, hlen⟩

/-- C8: when the external save of the completion record fails during finish,
the engine state — in particular the stored session — is left untouched, so
the session remains resumable; the store is cleared (and the timers are
disarmed) only when the save succeeds. -/
theorem finishWorkout_clears_only_on_success (w : ActiveWorkout) (mem : WeightMem)
    (wt : Bool) (rts : Option Nat) (ret : Option Int) :
    finishWorkout ⟨some w, mem, wt, rts, ret⟩ true false = ⟨some w, mem, wt, rts, ret⟩ ∧
    (finishWorkout ⟨some w, mem, wt, rts, ret⟩ true true).stored = none ∧
    (finishWorkout ⟨some w, mem, wt, rts, ret⟩ true true).workoutTimerArmed = false ∧
    (finishWorkout ⟨some w, mem, wt, rts, ret⟩ true true).restTimerSecs = none := by
  refine ⟨?_, ?_, ?_, ?_⟩ <;> simp [finishWorkout, stopResting]

/-- C9: the per-exercise elapsed time equals the latest completed-set
timestamp minus the earliest one among the completed sets carrying a
timestamp; it is `none` exactly when that collection is empty, and `some 0`
when it is a single timestamp. -/
theorem calculateExerciseElapsedMs_spec (sets : List ExerciseSet) :
    (calculateExerciseElapsedMs sets = none ↔ completedTimestamps sets = []) ∧
    (∀ t, completedTimestamps sets = [t] → calculateExerciseElapsedMs sets = some 0) ∧
    (∀ mx mn, (completedTimestamps sets).max? = some mx →
      (completedTimestamps sets).min? = some mn →
      calculateExerciseElapsedMs sets = some (mx - mn)) := by
  refine ⟨?_, ?_, ?_⟩
  · unfold calculateExerciseElapsedMs
    cases h : completedTimestamps sets <;> simp
  · intro t ht
    unfold calculateExerciseElapsedMs
    rw [ht]
    simp
  · intro mx mn hmx hmn
    cases h : completedTimestamps sets with
    | nil => rw [h] at hmx; simp [List.max?] at hmx
    | cons t ts =>
        rw [h] at hmx hmn
        have hmx1 : ts.foldl max t = mx := by
          have : (t :: ts).max? = some (ts.foldl max t) := rfl
          rw [this] at hmx
          exact Option.some.injEq _ _ ▸ hmx |> Option.some.inj
        have hmn1 : ts.foldl min t = mn := by
          have : (t :: ts).min? = some (ts.foldl min t) := rfl
          rw [this] at hmn
          exact Option.some.inj hmn
        have hle : mn ≤ mx := by
          rw [← hmx1, ← hmn1]
          exact le_trans (foldl_min_le ts t) (le_foldl_max ts t)
        unfold calculateExerciseElapsedMs
        rw [h]
        dsimp only
        rw [hmx1, hmn1]
        congr 1
        omega

/-- C9 witness: `calculateExerciseElapsedMs_spec` applied to `demoSets`,
whose completed timestamps are 100 and 350. -/
theorem calculateExerciseElapsedMs_spec_witness :
    calculateExerciseElapsedMs demoSets = some 250 := by
  have h := (calculateExerciseElapsedMs_spec demoSets).2.2 350 100 (by decide) (by decide)
  rw [h]
  decide

/-- C10: every engine transition other than reset and successful finish
(`completeSet`, rest start, rest expiry, pause toggle, rest extension)
leaves the stored session's `programId`, `programName` and `startTime`
(collected by `idFields`) unchanged. -/
theorem engineStep_preserves_identity_fields (st : EngineState) (op : EngineOp) (now : Int) :
    (engineStep st op now).stored.map idFields = st.stored.map idFields := by
  cases op with
  | complete progOpt ei si weight memOk =>
      cases progOpt with
      | none => rfl
      | some prog => exact completeSet_idFields prog st ei si weight memOk now
  | beginRest seconds =>
      show (startResting st seconds now).stored.map idFields = st.stored.map idFields
      unfold startResting
      cases h : st.stored with
      | none => simp [h]
      | some w =>
          simp only [h]
          rw [startRestTimer_stored_idFields]
          simp [idFields, h]
  | expireRest =>
      show (stopResting st).stored.map idFields = st.stored.map idFields
      cases h : st.stored <;> simp [stopResting, idFields, h]
  | togglePause =>
      show (togglePauseWorkout st now).stored.map idFields = st.stored.map idFields
      unfold togglePauseWorkout
      cases h : st.stored with
      | none => simp [h]
      | some w =>
          simp only [h]
          repeat' split
          all_goals
            first
              | (rw [startRestTimer_stored_idFields]; simp [idFields])
              | simp [stopResting, idFields]
  | extendRest seconds =>
      show (addRestTime st seconds).stored.map idFields = st.stored.map idFields
      unfold addRestTime
      repeat' split
      all_goals simp_all [idFields]


/-- C1 (code bug): the spec requires pause→true to preserve the persisted
rest anchors (`restStartTime`/`restDuration`) while merely disarming the
countdown, but `togglePauseWorkout` calls `stopResting`, which clears
`isResting` and both anchors in the store — evaluated here on a concrete
resting, unpaused session. -/
theorem togglePause_clears_rest_anchors :
    restingSession.isResting = true ∧
    restingSession.paused = false ∧
    restingSession.restStartTime = some 0 ∧
    restingSession.restDuration = some 60000 ∧
    (togglePauseWorkout restingState 10000).stored.map (fun w => w.paused) = some true ∧
    (togglePauseWorkout restingState 10000).stored.map (fun w => w.isResting) = some false ∧
    (togglePauseWorkout restingState 10000).stored.map (fun w => w.restStartTime) = some none ∧
    (togglePauseWorkout restingState 10000).stored.map (fun w => w.restDuration) = some none := by
  decide

/-- C6 (code bug): after `completeSet` on the first of two sets the stored
current-set index does advance to the remaining set, but the persisted
session does *not* carry the rest period the claim requires
(`resting = true`, `restStartTime = now`, `restDuration = 75000`): the final
`saveActiveWorkout` of the stale session object overwrites the snapshot that
`startResting` had just persisted, so only the driver countdown
(`restTimerSecs`/`restEndTime`) survives. -/
theorem completeSet_rest_not_persisted :
    (completeSet demoProgram initState 0 0 none true 5000).stored.map
      (fun w => w.exercises.map (fun e => e.currentSet)) = some [1] ∧
    (completeSet demoProgram initState 0 0 none true 5000).stored.map
      (fun w => w.exercises.map (fun e => e.sets.map (fun s => s.completed))) =
        some [[true, false]] ∧
    (completeSet demoProgram initState 0 0 none true 5000).restTimerSecs = some 75 ∧
    (completeSet demoProgram initState 0 0 none true 5000).restEndTime = some 80000 ∧
    (completeSet demoProgram initState 0 0 none true 5000).stored.map
      (fun w => w.isResting) = some false ∧
    (completeSet demoProgram initState 0 0 none true 5000).stored.map
      (fun w => w.restStartTime) = some none ∧
    (completeSet demoProgram initState 0 0 none true 5000).stored.map
      (fun w => w.restDuration) = some none := by
  decide

/-- C2 counterexample: with four one-set exercises, completing exercise 2
first moves `currentExerciseIndex` to 3; a later `completeSet` on exercise 0
then rewinds it to 1 (the forward search starts after the *argument* index,
not after the current exercise), so the index decreases across a sequence of
`completeSet` calls. -/
theorem completeSet_out_of_order_rewind_cex :
    currentExerciseIndexOf
        (completeSet quadProgram
          (completeSet quadProgram quadState 2 0 none true 10) 0 0 none true 20) <
      currentExerciseIndexOf (completeSet quadProgram quadState 2 0 none true 10) := by
  decide

/-- C2 (amended): `currentExerciseIndex` never decreases across `completeSet`
calls that target the current exercise or a later one (`exerciseIndex ≥
currentExerciseIndex`, which is all the UI layer ever issues). -/
theorem completeSet_forward_only_of_target_ge (prog : WorkoutProgram) (st : EngineState)
    (w : ActiveWorkout) (ei si : Nat) (weight : Option Int) (memOk : Bool) (now : Int)
    (hst : st.stored = some w) (hge : w.currentExerciseIndex ≤ ei) :
    currentExerciseIndexOf st ≤
      currentExerciseIndexOf (completeSet prog st ei si weight memOk now) := by
  have hcur : currentExerciseIndexOf st = w.currentExerciseIndex := by
    simp [currentExerciseIndexOf, hst]
  rw [hcur]
  unfold completeSet
  rw [hst]
  dsimp only
  split
  · rw [← hcur]
  · split
    · rw [← hcur]
    · split
      · split
        · exact completeSetAdvance_cEI _ _ _ _ _ _ _ _ hst hge
        · split
          · rw [← hcur]
          · exact completeSetAdvance_cEI _ _ _ _ _ _ _ _ hst hge
      · exact completeSetAdvance_cEI _ _ _ _ _ _ _ _ hst hge

/-- C2 witness: the amended monotonicity applied to `demoProgram`'s fresh
session with the call targeting the current exercise. -/
theorem completeSet_forward_only_witness :
    currentExerciseIndexOf initState ≤
      currentExerciseIndexOf (completeSet demoProgram initState 0 0 none true 5) :=
  completeSet_forward_only_of_target_ge demoProgram initState
    (createActiveWorkout demoProgram 0) 0 0 none true 5 rfl (by decide)


/-- C3 counterexample: set (0,0) is completed at time 100; a second
`completeSet` targeting the same, already-completed set (the engine has no
guard against re-completion) overwrites its completion timestamp with 200 —
so a subsequent engine operation does change a completed SetRecord. -/
theorem completeSet_recomplete_overwrites_cex :
    (setAt (completeSet demoProgram initState 0 0 none true 100) 0 0).map
      (fun s => s.completed) = some true ∧
    (setAt (completeSet demoProgram initState 0 0 none true 100) 0 0).map
      (fun s => s.completedAt) = some (some 100) ∧
    (setAt (completeSet demoProgram
        (completeSet demoProgram initState 0 0 none true 100) 0 0 none true 200) 0 0).map
      (fun s => s.completedAt) = some (some 200) := by
  decide

/-- C3 (amended): once a stored SetRecord is completed, every engine
operation other than a `completeSet` call re-targeting that same set leaves
the record — its `completed`, `completedAt` and `weight` fields — unchanged
in the store. -/
theorem completedSet_immutable_unless_retargeted (st : EngineState) (op : EngineOp)
    (now : Int) (ei si : Nat) (s : ExerciseSet)
    (hs : setAt st ei si = some s) (_hc : s.completed = true)
    (hop : targetsSet op ei si = false) :
    setAt (engineStep st op now) ei si = some s := by
  cases op with
  | complete progOpt ei1 si1 weight memOk =>
      cases progOpt with
      | none => exact hs
      | some prog =>
          have hne : ei1 = ei → si1 = si → False := by
            intro h1 h2
            subst h1
            subst h2
            simp [targetsSet] at hop
          show setAt (completeSet prog st ei1 si1 weight memOk now) ei si = some s
          rw [completeSet_setAt_ne _ _ _ _ _ _ _ _ _ hne]
          exact hs
  | beginRest seconds =>
      show setAt (startResting st seconds now) ei si = some s
      rw [setAt_congr_stored _ st _ _ (startResting_stored_exercises st seconds now)]
      exact hs
  | expireRest =>
      show setAt (stopResting st) ei si = some s
      rw [setAt_congr_stored _ st _ _ (stopResting_stored_exercises st)]
      exact hs
  | togglePause =>
      show setAt (togglePauseWorkout st now) ei si = some s
      rw [setAt_congr_stored _ st _ _ (togglePauseWorkout_stored_exercises st now)]
      exact hs
  | extendRest seconds =>
      show setAt (addRestTime st seconds) ei si = some s
      rw [setAt_congr_stored _ st _ _ (addRestTime_stored_exercises st seconds)]
      exact hs

/-- C3 witness: the amended immutability applied after completing set (0,0)
at time 100, with a pause toggle as the subsequent operation. -/
theorem completedSet_immutable_witness :
    setAt (engineStep (completeSet demoProgram initState 0 0 none true 100)
        EngineOp.togglePause 500) 0 0 =
      some { setNumber := 1, completed := true, completedAt := some 100 } :=
  completedSet_immutable_unless_retargeted
    (completeSet demoProgram initState 0 0 none true 100) EngineOp.togglePause 500 0 0
    { setNumber := 1, completed := true, completedAt := some 100 }
    (by decide) (by decide) (by decide)

/-- C4 counterexample, two concrete resumes the claim mishandles.  First, a
persisted non-paused resting session with `restDuration = 0` (recomputed
remaining rest negative at `now = 5000`) is left in its stale resting state —
the source's truthiness guard on `restDuration` skips the reconciliation —
where the claim requires transitioning out of resting.  Second, a session
59.5 s into a 60 s rest (remaining 500 ms, positive) is *not* re-armed at
that remaining value as the claim requires: `startRestTimer` is armed for
`Math.floor(500/1000) = 0` seconds and its synchronous first tick expires the
rest on the spot, clearing the persisted rest state. -/
theorem resumeWorkout_claim_cex :
    staleRestSession.paused = false ∧
    staleRestSession.isResting = true ∧
    staleRestSession.restStartTime = some 0 ∧
    staleRestSession.restDuration = some 0 ∧
    ((0 : Int) - (5000 - 0) ≤ 0) ∧
    (resumeWorkout staleRestState true 5000).stored.map
      (fun w => w.isResting) = some true ∧
    ((0 : Int) < 60000 - (59500 - 0)) ∧
    (resumeWorkout restingState true 59500).stored.map
      (fun w => w.isResting) = some false ∧
    (resumeWorkout restingState true 59500).stored.map
      (fun w => w.restStartTime) = some none ∧
    (resumeWorkout restingState true 59500).restTimerSecs = none := by
  decide

/-- C4 (amended): for every persisted non-paused session with
`resting = true` whose `restStartTime` is present and whose `restDuration` is
present and nonzero, resuming at `now` recomputes the remaining rest as
`restDuration - (now - restStartTime)`: when at least one whole second
remains, the countdown is re-armed at that remaining value floored to the
driver's whole seconds, with the stored session untouched; when less than a
second remains (zero, negative, or a positive sub-second remainder, which
arms a 0-second countdown that the driver's synchronous first tick expires),
the session immediately transitions out of resting with both anchors
cleared. -/
theorem resumeWorkout_rest_reconciliation (st : EngineState) (w : ActiveWorkout)
    (restStart dur now : Int) (hst : st.stored = some w) (hp : w.paused = false)
    (hr : w.isResting = true) (hrs : w.restStartTime = some restStart)
    (hd : w.restDuration = some dur) (hdz : dur ≠ 0) :
    (1000 ≤ dur - (now - restStart) →
      (resumeWorkout st true now).stored = some w ∧
      (resumeWorkout st true now).restTimerSecs =
        some ((dur - (now - restStart)) / 1000).toNat ∧
      (resumeWorkout st true now).restEndTime =
        some (now + (((dur - (now - restStart)) / 1000).toNat : Int) * 1000) ∧
      (resumeWorkout st true now).workoutTimerArmed = true) ∧
    (dur - (now - restStart) < 1000 →
      (resumeWorkout st true now).stored =
        some { w with isResting := false, restStartTime := none, restDuration := none } ∧
      (resumeWorkout st true now).restTimerSecs = none ∧
      (resumeWorkout st true now).restEndTime = none ∧
      (resumeWorkout st true now).workoutTimerArmed = true) := by
  have harm : ∀ hpos : 0 < dur - (now - restStart), resumeWorkout st true now =
      startRestTimer { st with workoutTimerArmed := true }
        ((dur - (now - restStart)) / 1000).toNat now := by
    intro hpos
    unfold resumeWorkout
    rw [hst]
    simp [hp, hr, hrs, hd, hdz, hpos]
  constructor
  · intro h1000
    rw [harm (by omega)]
    have hne : ((dur - (now - restStart)) / 1000).toNat ≠ 0 := by omega
    unfold startRestTimer
    dsimp only
    rw [if_neg hne]
    exact ⟨by simp [hst], rfl, rfl, rfl⟩
  · intro hlt
    by_cases hpos : 0 < dur - (now - restStart)
    · rw [harm hpos]
      have h0 : ((dur - (now - restStart)) / 1000).toNat = 0 := by omega
      unfold startRestTimer
      dsimp only
      rw [if_pos h0]
      refine ⟨?_, rfl, rfl, rfl⟩
      simp [stopResting, hst]
    · have h2 : resumeWorkout st true now =
          stopResting { st with workoutTimerArmed := true } := by
        unfold resumeWorkout
        rw [hst]
        simp [hp, hr, hrs, hd, hdz, show ¬(now - restStart < dur) by omega]
      rw [h2]
      refine ⟨?_, rfl, rfl, rfl⟩
      simp [stopResting, hst]

/-- C4 witness: the reconciliation applied to `restingState` (rest began at
0 with 60000 ms) resumed at 10000: remaining 50000 ms (at least one whole
second), countdown re-armed at 50 seconds with the stored session
untouched. -/
theorem resumeWorkout_rest_reconciliation_witness :
    (resumeWorkout restingState true 10000).stored = some restingSession ∧
    (resumeWorkout restingState true 10000).restTimerSecs = some 50 := by
  have h := (resumeWorkout_rest_reconciliation restingState restingSession 0 60000 10000
    rfl rfl rfl rfl rfl (by decide)).1 (by decide)
  refine ⟨h.1, ?_⟩
  rw [h.2.1]
  decide


/-- C7 counterexample: completing set (0,0) with a recorded load of 0 marks
the set completed with `weight = some 0`, yet the weight memory stays empty —
the source's `if (weight)` truthiness guard skips a zero load, contradicting
the claim that a provided load of 0 is written to Weight Memory. -/
theorem completeSet_zero_weight_not_saved_cex :
    setAt (completeSet demoProgram initState 0 0 (some 0) true 5000) 0 0 =
      some { setNumber := 1, completed := true, completedAt := some 5000,
             weight := some 0 } ∧
    (completeSet demoProgram initState 0 0 (some 0) true 5000).weights = [] ∧
    getLastUsedWeight
      (completeSet demoProgram initState 0 0 (some 0) true 5000).weights "e1" = none := by
  decide

/-- C7 (amended): for every `completeSet` call on a valid target providing a
*nonzero* recorded load, the load is written to Weight Memory keyed by the
exercise's identifier; a failure of that write changes neither the persisted
session nor the driver, and the set completion (completed flag, timestamp,
recorded load) is applied to the stored session regardless. -/
theorem completeSet_weight_memory (prog : WorkoutProgram) (st : EngineState)
    (w : ActiveWorkout) (ei si : Nat) (ex : ActiveExercise) (s : ExerciseSet)
    (spec : Exercise) (x : Int) (now : Int)
    (hst : st.stored = some w) (hex : w.exercises[ei]? = some ex)
    (hs : ex.sets[si]? = some s) (hspec : prog.exercises[ei]? = some spec)
    (hx : x ≠ 0) :
    getLastUsedWeight (completeSet prog st ei si (some x) true now).weights spec.id =
      some x ∧
    (completeSet prog st ei si (some x) false now).stored =
      (completeSet prog st ei si (some x) true now).stored ∧
    setAt (completeSet prog st ei si (some x) false now) ei si =
      some { s with completed := true, completedAt := some now, weight := some x } := by
  have hslt : si < ex.sets.length := (List.getElem?_eq_some.mp hs).1
  have hred : ∀ memOk : Bool, completeSet prog st ei si (some x) memOk now =
      completeSetAdvance prog st w ei ex
        (ex.sets.set si { s with completed := true, completedAt := some now, weight := some x })
        now (saveLastUsedWeight st.weights spec.id x memOk) := by
    intro memOk
    unfold completeSet
    rw [hst]
    dsimp only
    rw [hex]
    dsimp only
    rw [hs]
    dsimp only
    rw [if_neg hx, hspec]
  refine ⟨?_, ?_, ?_⟩
  · rw [hred true, completeSetAdvance_weights]
    unfold saveLastUsedWeight
    rw [if_pos rfl]
    exact getLastUsedWeight_setWeight st.weights spec.id x
  · rw [hred false, hred true]
    exact completeSetAdvance_stored_mem_irrel prog st w ei ex _ now _ _
  · rw [hred false]
    rw [completeSetAdvance_setAt_target _ _ _ _ _ _ _ _ _ spec hex hspec]
    exact List.getElem?_set_eq_of_lt _ hslt

/-- C7 witness: the amended weight-memory behavior at a concrete call with
load 100 on `demoProgram`'s fresh session. -/
theorem completeSet_weight_memory_witness :
    getLastUsedWeight (completeSet demoProgram initState 0 0 (some 100) true 5000).weights
      "e1" = some 100 ∧
    (completeSet demoProgram initState 0 0 (some 100) false 5000).stored =
      (completeSet demoProgram initState 0 0 (some 100) true 5000).stored := by
  have h := completeSet_weight_memory demoProgram initState
    (createActiveWorkout demoProgram 0) 0 0
    { exerciseId := "e1"
      sets := [ { setNumber := 1, completed := false },
                { setNumber := 2, completed := false } ]
      currentSet := 0 }
    { setNumber := 1, completed := false }
    { id := "e1", name := "Bench Press", sets := 2, reps := 8, restTime := 75 }
    100 5000 rfl (by decide) (by decide) (by decide) (by decide)
  exact ⟨h.1, h.2.1⟩


end Homebase
